import Mathlib

/-!
Verification development for the nchip8 CHIP-8 emulator.

The embedding below translates the repository's data model and operations:

* `cpu` and its operations come from `src/nchip8/cpu.hpp`.  The member
  function bodies live in `cpu.cpp`, which is not among the repository's
  files, so those bodies are modelled from the specification (each such
  definition's doc comment starts with "Modelled from the spec:"); the
  declarations, member data and the encoding comments of `cpu.hpp` are used
  wherever they apply.
* `cpu_daemon` and its worker loop are translated from
  `src/nchip8/cpu_daemon.cpp` and `src/src/nchip8/cpu_daemon.hpp`, which are
  present in full.
-/

namespace nchip8

/-- The CHIP-8 machine state, translated from the member data of class `cpu`
in `src/nchip8/cpu.hpp`: 4096 bytes of RAM, 16 general purpose registers, the
I register, program counter, stack pointer and 16-entry stack, together with
the 128x64 boolean screen buffer, the delay/sound timers and the 16 key
flags that `cpu_daemon.hpp` exposes through its accessors. Bytes and words
are carried as `Nat`. -/
structure cpu where
  m_ram : List Nat
  m_gpr : List Nat
  m_i : Nat
  m_pc : Nat
  m_sp : Nat
  m_stack : List Nat
  m_screen : List Bool
  m_dt : Nat
  m_st : Nat
  m_keys : List Bool
  deriving DecidableEq, Repr

/-- Modelled from the spec: `cpu::reset` (its body is in `cpu.cpp`, which is
not among the repository's files). The spec's lifecycle section: reset clears
memory, registers, the stack and the display, sets pc to 0x200 and sp to 0. -/
def cpu.reset (_c : cpu) : cpu :=
  { m_ram := List.replicate 4096 0
    m_gpr := List.replicate 16 0
    m_i := 0
    m_pc := 0x200
    m_sp := 0
    m_stack := List.replicate 16 0
    m_screen := List.replicate (128 * 64) false
    m_dt := 0
    m_st := 0
    m_keys := List.replicate 16 false }

/-- Modelled from the spec: `cpu::load_rom` (`cpu.cpp` absent). The spec:
`load_rom` validates that `len(rom) + load_address <= memory_size` (4096),
writes the ROM bytes in place at the address and succeeds; otherwise it
returns failure and leaves the state unchanged. -/
def cpu.load_rom (c : cpu) (rom : List Nat) (address : Nat) : Bool × cpu :=
  if rom.length + address ≤ 4096 then
    (true, { c with
      m_ram := c.m_ram.take address ++ rom ++ c.m_ram.drop (address + rom.length) })
  else
    (false, c)

/-!
## The opcode dispatch engine

`cpu.hpp` declares the handler tree `m_op_tree` (four nested maps keyed by
`std::optional<std::uint8_t>`, one level per nibble, `std::nullopt` marking a
wildcard/operand nibble) and one static `op_handler` per instruction, each
annotated with its encoding (e.g. `0x1NNN - { 0x1, nullopt, nullopt,
nullopt }`).  Handlers are identified here by the name `cpu.hpp` gives them;
a map level is an association list of key/value pairs (insertion into
`std::unordered_map` and lookup by key do not depend on bucket order, so an
association list carries the same map semantics).
-/

/-- The 35 static operation handlers declared in `src/nchip8/cpu.hpp`
(lines 138-172), named as there; the handler's identity stands in for its
execute/disassemble function pair. -/
inductive OpName where
  | CLS | RET | SYS | JP | CALL | SE_VX_KK | SNE_VX_KK | SE_VX_VY | LD_VX_KK
  | ADD_VX_KK | LD_VX_VY | OR_VX_Y | AND_VX_VY | XOR_VX_VY | ADD_VX_VY
  | SUB_VX_VY | SHR_VX_VY | SUBN_VX_VY | SHL_VX_VY | SNE_VX_VY | LD_I_NNN
  | JP_V0_NNN | RND_VX_KK | DRW_VX_VY_N | SKP_VX | SKNP_VX | LD_VX_DT
  | LD_VX_K | LD_DT_VX | LD_ST_VX | ADD_I_VX | LD_F_VX | LD_B_VX
  | LD_imm_I_VX | LD_VX_imm_I
  deriving DecidableEq, Repr

/-- A map key at one tree level: a fixed nibble value, or `none` for the
wildcard (`std::nullopt`) meaning the nibble is operand data. -/
abbrev key := Option (Fin 16)

/-- Key lookup in one map level (`std::unordered_map::find`). -/
def map_find {α : Type} (k : key) : List (key × α) → Option α
  | [] => none
  | (k2, v) :: rest => if k = k2 then some v else map_find k rest

/-- Insert-or-update at a key, creating the entry when absent
(`std::unordered_map::operator[]` default-constructs a missing entry). -/
def map_update {α : Type} (k : key) (f : Option α → α) :
    List (key × α) → List (key × α)
  | [] => [(k, f none)]
  | (k2, v) :: rest =>
    if k = k2 then (k2, f (some v)) :: rest else (k2, v) :: map_update k f rest

/-- The per-nibble encoding of an `op_handler` (`m_encoding` in `cpu.hpp`):
most significant nibble first. -/
abbrev encoding := key × key × key × key

abbrev op_tree_l3 := List (key × OpName)

abbrev op_tree_l2 := List (key × op_tree_l3)

abbrev op_tree_l1 := List (key × op_tree_l2)

abbrev op_tree_t := List (key × op_tree_l1)

/-- Modelled from the spec: `cpu::add_op_handler` (`cpu.cpp` absent).
Registration stores the handler at the path of its four encoding keys,
creating missing inner maps (`m_op_tree[e0][e1][e2][e3] = handler`). -/
def add_op_handler (t : op_tree_t) (e : encoding) (nm : OpName) : op_tree_t :=
  map_update e.1 (fun s1 =>
    map_update e.2.1 (fun s2 =>
      map_update e.2.2.1 (fun s3 =>
        map_update e.2.2.2 (fun _ => nm) (s3.getD []))
        (s2.getD []))
      (s1.getD []))
    t

/-- The registered handlers with their encodings, in the declaration order of
`src/nchip8/cpu.hpp` lines 138-172 (encodings transcribed from the comment on
each declaration, e.g. `// 1nnn - JP addr` gives `(1, wild, wild, wild)`). -/
def op_handlers : List (encoding × OpName) :=
  [ ((some 0x0, some 0x0, some 0xE, some 0x0), .CLS),
    ((some 0x0, some 0x0, some 0xE, some 0xE), .RET),
    ((some 0x0, none, none, none), .SYS),
    ((some 0x1, none, none, none), .JP),
    ((some 0x2, none, none, none), .CALL),
    ((some 0x3, none, none, none), .SE_VX_KK),
    ((some 0x4, none, none, none), .SNE_VX_KK),
    ((some 0x5, none, none, some 0x0), .SE_VX_VY),
    ((some 0x6, none, none, none), .LD_VX_KK),
    ((some 0x7, none, none, none), .ADD_VX_KK),
    ((some 0x8, none, none, some 0x0), .LD_VX_VY),
    ((some 0x8, none, none, some 0x1), .OR_VX_Y),
    ((some 0x8, none, none, some 0x2), .AND_VX_VY),
    ((some 0x8, none, none, some 0x3), .XOR_VX_VY),
    ((some 0x8, none, none, some 0x4), .ADD_VX_VY),
    ((some 0x8, none, none, some 0x5), .SUB_VX_VY),
    ((some 0x8, none, none, some 0x6), .SHR_VX_VY),
    ((some 0x8, none, none, some 0x7), .SUBN_VX_VY),
    ((some 0x8, none, none, some 0xE), .SHL_VX_VY),
    ((some 0x9, none, none, some 0x0), .SNE_VX_VY),
    ((some 0xA, none, none, none), .LD_I_NNN),
    ((some 0xB, none, none, none), .JP_V0_NNN),
    ((some 0xC, none, none, none), .RND_VX_KK),
    ((some 0xD, none, none, none), .DRW_VX_VY_N),
    ((some 0xE, none, some 0x9, some 0xE), .SKP_VX),
    ((some 0xE, none, some 0xA, some 0x1), .SKNP_VX),
    ((some 0xF, none, some 0x0, some 0x7), .LD_VX_DT),
    ((some 0xF, none, some 0x0, some 0xA), .LD_VX_K),
    ((some 0xF, none, some 0x1, some 0x5), .LD_DT_VX),
    ((some 0xF, none, some 0x1, some 0x8), .LD_ST_VX),
    ((some 0xF, none, some 0x1, some 0xE), .ADD_I_VX),
    ((some 0xF, none, some 0x2, some 0x9), .LD_F_VX),
    ((some 0xF, none, some 0x3, some 0x3), .LD_B_VX),
    ((some 0xF, none, some 0x5, some 0x5), .LD_imm_I_VX),
    ((some 0xF, none, some 0x6, some 0x5), .LD_VX_imm_I) ]

/-- Modelled from the spec: `cpu::setup_op_handlers` (`cpu.cpp` absent) adds
every declared handler to the tree. -/
def m_op_tree : op_tree_t :=
  op_handlers.foldl (fun t p => add_op_handler t p.1 p.2) []

/-- One level of the lookup of spec section 4.1: attempt the exact-value key
first; if absent, attempt the wildcard key; if both are absent the level
fails. -/
def tree_lookup {α : Type} (m : List (key × α)) (n : Fin 16) : Option α :=
  match map_find (some n) m with
  | some v => some v
  | none => map_find none m

/-- Most significant nibble of a 16-bit instruction word. -/
def nib0 (i : Nat) : Fin 16 := ⟨i / 4096 % 16, Nat.mod_lt _ (by decide)⟩

def nib1 (i : Nat) : Fin 16 := ⟨i / 256 % 16, Nat.mod_lt _ (by decide)⟩

def nib2 (i : Nat) : Fin 16 := ⟨i / 16 % 16, Nat.mod_lt _ (by decide)⟩

/-- Least significant nibble of a 16-bit instruction word. -/
def nib3 (i : Nat) : Fin 16 := ⟨i % 16, Nat.mod_lt _ (by decide)⟩

/-- The four-level descent through the handler tree. -/
def lookup4 (n0 n1 n2 n3 : Fin 16) : Option OpName :=
  (tree_lookup m_op_tree n0).bind fun t1 =>
  (tree_lookup t1 n1).bind fun t2 =>
  (tree_lookup t2 n2).bind fun t3 =>
  tree_lookup t3 n3

/-- Modelled from the spec: `cpu::get_op_handler_for_instruction` (`cpu.cpp`
absent; the tree and its doc comment are in `cpu.hpp` lines 112-127).  The
instruction's four nibbles are looked up level by level, exact key before
wildcard key, and the lookup returns `none` when a level has neither. -/
def get_op_handler_for_instruction (instruction : Nat) : Option OpName :=
  lookup4 (nib0 instruction) (nib1 instruction) (nib2 instruction)
    (nib3 instruction)

/-- Whether an encoding key accepts a nibble: a wildcard accepts anything, a
fixed key only its own value. -/
def nib_matches (k : key) (n : Fin 16) : Bool :=
  match k with
  | none => true
  | some v => v == n

def nibs_match (e : encoding) (n0 n1 n2 n3 : Fin 16) : Bool :=
  nib_matches e.1 n0 && nib_matches e.2.1 n1 && nib_matches e.2.2.1 n2 &&
    nib_matches e.2.2.2 n3

/-- Whether a concrete instruction word matches a registered opcode pattern
(every fixed nibble of the encoding equals the instruction's nibble). -/
def encoding_matches (e : encoding) (instruction : Nat) : Bool :=
  nibs_match e (nib0 instruction) (nib1 instruction) (nib2 instruction)
    (nib3 instruction)

set_option maxRecDepth 10000

/-- Any instruction matching the pattern of a registered handler other than
`SYS` resolves to exactly that handler. -/
theorem lookup4_of_matches : ∀ (n0 n1 n2 n3 : Fin 16), ∀ p ∈ op_handlers,
    p.2 ≠ OpName.SYS → nibs_match p.1 n0 n1 n2 n3 = true →
    lookup4 n0 n1 n2 n3 = some p.2 := by
  intro n0 n1 n2 n3 p hp hne hm
  fin_cases hp <;>
  first
    | exact absurd rfl hne
    | (simp only [nibs_match, nib_matches, Bool.and_eq_true, beq_iff_eq,
        true_and, and_true] at hm
       first
         | (obtain ⟨⟨⟨h1, h2⟩, h3⟩, h4⟩ := hm
            subst h1; subst h2; subst h3; subst h4; rfl)
         | (obtain ⟨⟨h1, h2⟩, h3⟩ := hm
            subst h1; subst h2; subst h3; rfl)
         | (obtain ⟨h1, h2⟩ := hm
            subst h1; subst h2; rfl)
         | (subst hm; rfl))

/-- Claim C1 (amended): for every 16-bit instruction word the lookup descends
the 4 nibble levels trying the exact key before the wildcard key; every
concrete instruction matching the pattern of a registered handler other than
`SYS` (`0nnn`) resolves to that handler, and the fully fixed registrations
`00E0`/`00EE` take precedence over the wildcard `SYS` registration sharing
their leading nibble.  (The original claim fails for the `SYS` pattern
itself: see the counterexample.) -/
theorem C1_dispatch_resolution :
    (∀ instruction : Nat, instruction < 0x10000 → ∀ p ∈ op_handlers,
      p.2 ≠ OpName.SYS → encoding_matches p.1 instruction = true →
      get_op_handler_for_instruction instruction = some p.2) ∧
    get_op_handler_for_instruction 0x00E0 = some OpName.CLS ∧
    get_op_handler_for_instruction 0x00EE = some OpName.RET ∧
    encoding_matches (some 0x0, none, none, none) 0x00E0 = true := by
  refine ⟨?_, by decide, by decide, by decide⟩
  intro i _ p hp hne hm
  exact lookup4_of_matches (nib0 i) (nib1 i) (nib2 i) (nib3 i) p hp hne hm

/-- Claim C1, counterexample: the wildcard pattern `0nnn` (`SYS`) is
registered, the minimal (0x0000) and the maximal (0x0FFF) instructions both
match it, yet 0x0000 resolves to no handler at all (the exact level-1 key `0`
of `00E0`/`00EE` shadows the wildcard branch and the descent does not
backtrack) while 0x0FFF resolves to `SYS`. -/
theorem C1_counterexample_SYS_shadowed :
    ((some 0x0, none, none, none), OpName.SYS) ∈ op_handlers ∧
    encoding_matches (some 0x0, none, none, none) 0x0000 = true ∧
    encoding_matches (some 0x0, none, none, none) 0x0FFF = true ∧
    get_op_handler_for_instruction 0x0000 = none ∧
    get_op_handler_for_instruction 0x0FFF = some OpName.SYS := by decide

/-- A ROM that fits is written in place over the reset-cleared memory. -/
theorem load_rom_fits (c : cpu) (rom : List Nat) (address : Nat)
    (h : rom.length + address ≤ 4096) :
    c.load_rom rom address =
      (true, { c with
        m_ram := c.m_ram.take address ++ rom ++
          c.m_ram.drop (address + rom.length) }) := by
  unfold cpu.load_rom
  rw [if_pos h]

/-- Claim C2: for every ROM byte vector and load address, `load_rom` returns
true exactly when the ROM's length plus the load address fits within the
4096-byte memory, and whenever it returns false the entire machine state
(memory, registers, stack, pc, sp, display) is unchanged. -/
theorem C2_load_rom_bounds (c : cpu) (rom : List Nat) (address : Nat) :
    ((c.load_rom rom address).1 = true ↔ rom.length + address ≤ 4096) ∧
    ((c.load_rom rom address).1 = false → (c.load_rom rom address).2 = c) := by
  unfold cpu.load_rom
  by_cases h : rom.length + address ≤ 4096 <;> simp [h]

/-!
## Operand decoding and disassembly
-/

/-- The operand data an instruction may carry, translated from the struct
`operand_data` of `cpu.hpp` (lines 78-85). -/
structure operand_data where
  m_nnn : Nat
  m_x : Nat
  m_y : Nat
  m_kk : Nat
  m_n : Nat
  deriving DecidableEq, Repr

/-- Operand extraction from a 16-bit instruction word, per the field comments
of `operand_data` in `cpu.hpp` and the spec's generic decode (`addr12 =
n1n2n3`, `x = n1`, `y = n2`, `imm8 = n2n3`, `small4 = n3`). -/
def operand_data.ofInstruction (i : Nat) : operand_data :=
  { m_nnn := i % 4096
    m_x := i / 256 % 16
    m_y := i / 16 % 16
    m_kk := i % 256
    m_n := i % 16 }

/-- Modelled from the spec: `cpu::read_u16` (`cpu.cpp` absent) reads the
16-bit big-endian instruction word at an address (CHIP-8 stores the high byte
first). -/
def cpu.read_u16 (c : cpu) (address : Nat) : Nat :=
  c.m_ram.getD address 0 * 256 + c.m_ram.getD (address + 1) 0

def dasm_reg (n : Nat) : String :=
  "V" ++ toString n

/-- Modelled from the spec: the per-handler disassembly routine
(`func_dasm_op`, bodies in the absent `cpu.cpp`): a human-readable mnemonic
built from the handler's name and the decoded operands, following the
assembly comments of `cpu.hpp` lines 138-172. -/
def dasm_string (nm : OpName) (od : operand_data) : String :=
  match nm with
  | .CLS => "CLS"
  | .RET => "RET"
  | .SYS => "SYS " ++ toString od.m_nnn
  | .JP => "JP " ++ toString od.m_nnn
  | .CALL => "CALL " ++ toString od.m_nnn
  | .SE_VX_KK => "SE " ++ dasm_reg od.m_x ++ ", " ++ toString od.m_kk
  | .SNE_VX_KK => "SNE " ++ dasm_reg od.m_x ++ ", " ++ toString od.m_kk
  | .SE_VX_VY => "SE " ++ dasm_reg od.m_x ++ ", " ++ dasm_reg od.m_y
  | .LD_VX_KK => "LD " ++ dasm_reg od.m_x ++ ", " ++ toString od.m_kk
  | .ADD_VX_KK => "ADD " ++ dasm_reg od.m_x ++ ", " ++ toString od.m_kk
  | .LD_VX_VY => "LD " ++ dasm_reg od.m_x ++ ", " ++ dasm_reg od.m_y
  | .OR_VX_Y => "OR " ++ dasm_reg od.m_x ++ ", " ++ dasm_reg od.m_y
  | .AND_VX_VY => "AND " ++ dasm_reg od.m_x ++ ", " ++ dasm_reg od.m_y
  | .XOR_VX_VY => "XOR " ++ dasm_reg od.m_x ++ ", " ++ dasm_reg od.m_y
  | .ADD_VX_VY => "ADD " ++ dasm_reg od.m_x ++ ", " ++ dasm_reg od.m_y
  | .SUB_VX_VY => "SUB " ++ dasm_reg od.m_x ++ ", " ++ dasm_reg od.m_y
  | .SHR_VX_VY => "SHR " ++ dasm_reg od.m_x ++ ", " ++ dasm_reg od.m_y
  | .SUBN_VX_VY => "SUBN " ++ dasm_reg od.m_x ++ ", " ++ dasm_reg od.m_y
  | .SHL_VX_VY => "SHL " ++ dasm_reg od.m_x ++ ", " ++ dasm_reg od.m_y
  | .SNE_VX_VY => "SNE " ++ dasm_reg od.m_x ++ ", " ++ dasm_reg od.m_y
  | .LD_I_NNN => "LD I, " ++ toString od.m_nnn
  | .JP_V0_NNN => "JP V0, " ++ toString od.m_nnn
  | .RND_VX_KK => "RND " ++ dasm_reg od.m_x ++ ", " ++ toString od.m_kk
  | .DRW_VX_VY_N =>
    "DRW " ++ dasm_reg od.m_x ++ ", " ++ dasm_reg od.m_y ++ ", " ++
      toString od.m_n
  | .SKP_VX => "SKP " ++ dasm_reg od.m_x
  | .SKNP_VX => "SKNP " ++ dasm_reg od.m_x
  | .LD_VX_DT => "LD " ++ dasm_reg od.m_x ++ ", DT"
  | .LD_VX_K => "LD " ++ dasm_reg od.m_x ++ ", K"
  | .LD_DT_VX => "LD DT, " ++ dasm_reg od.m_x
  | .LD_ST_VX => "LD ST, " ++ dasm_reg od.m_x
  | .ADD_I_VX => "ADD I, " ++ dasm_reg od.m_x
  | .LD_F_VX => "LD F, " ++ dasm_reg od.m_x
  | .LD_B_VX => "LD B, " ++ dasm_reg od.m_x
  | .LD_imm_I_VX => "LD [I], " ++ dasm_reg od.m_x
  | .LD_VX_imm_I => "LD " ++ dasm_reg od.m_x ++ ", [I]"

/-- Modelled from the spec: `cpu::dasm_op` (`cpu.cpp` absent; the declaration
in `cpu.hpp` lines 39-42 is a `const` member returning
`std::optional<std::string>`).  The machine state is passed through
explicitly so that any mutation would be visible: the instruction word at the
address is fetched, resolved through the handler tree, and its disassembly
routine applied to the decoded operands; no handler means `none`. -/
def cpu.dasm_op (c : cpu) (address : Nat) : Option String × cpu :=
  match get_op_handler_for_instruction (c.read_u16 address) with
  | some nm =>
    (some (dasm_string nm (operand_data.ofInstruction (c.read_u16 address))), c)
  | none => (none, c)

/-- Claim C8: for every machine state and aligned address, `dasm_op` leaves
the entire machine state (memory, registers, I, pc, sp, stack, timers,
display, key state) unchanged: disassembly has no execution side effects. -/
theorem C8_dasm_op_pure (c : cpu) (address : Nat) (_h : address % 2 = 0) :
    (c.dasm_op address).2 = c := by
  unfold cpu.dasm_op
  cases get_op_handler_for_instruction (c.read_u16 address) <;> rfl

/-- An arbitrary small machine state used to instantiate theorems. -/
def cpu0 : cpu :=
  { m_ram := [], m_gpr := [], m_i := 0, m_pc := 0, m_sp := 0, m_stack := []
    m_screen := [], m_dt := 0, m_st := 0, m_keys := [] }

/-- Claim C8, witness: disassembling at the aligned address 0x200 leaves a
concrete machine state unchanged. -/
theorem C8_dasm_op_pure_witness : (cpu0.dasm_op 0x200).2 = cpu0 :=
  C8_dasm_op_pure cpu0 0x200 rfl

/-!
## The execution scheduler (`cpu_daemon`)

Translated from `src/nchip8/cpu_daemon.cpp` and
`src/src/nchip8/cpu_daemon.hpp`, both present in full.  The C++ object stores
its message handlers (`std::function`s capturing `this`) inside the object;
a Lean structure cannot contain functions over itself, so the handler table
is passed alongside the daemon state, and the concrete table built by the
constructor is `daemon_handlers` below.
-/

/-- CPU state enumeration, from `cpu_daemon.hpp` lines 45-49. -/
inductive cpu_state where
  | paused
  | running
  deriving DecidableEq, Repr

/-- Modelled from the spec: the command kinds (`cpu_message.hpp` is not among
the repository's files).  `cpu_daemon.cpp` uses `LoadROM`, `SetStateRunning`
and the count marker `_last`; the spec's command surface lists load-rom,
set-running, set-paused, key-down, key-up and set-clock-speed as the minimum
set, named here in the code's style. -/
inductive cpu_message_type where
  | LoadROM
  | SetStateRunning
  | SetStatePaused
  | KeyDown
  | KeyUp
  | SetClockSpeed
  deriving DecidableEq, Repr

/-- Modelled from the spec: `cpu_message` (`cpu_message.hpp` absent).
`cpu_daemon.cpp` reads `msg.m_type` and the ROM bytes `msg.m_data`; the
spec's `load_rom(bytes, address)` command carries a load address, modelled as
`m_address`. -/
structure cpu_message where
  m_type : cpu_message_type
  m_data : List Nat
  m_address : Nat
  deriving DecidableEq, Repr

/-- The scheduler state owned by the daemon: the cpu, the run state (initial
state `paused`, set in the constructor), the clock-speed field
(`m_clock_speed = 500` in `cpu_daemon.hpp` line 101) and the message queue. -/
structure cpu_daemon where
  m_cpu : cpu
  m_cpu_state : cpu_state
  m_clock_speed : Nat
  m_unhandled_messages : List cpu_message
  deriving DecidableEq, Repr

/-- A registered message handler (`cpu_message_handler`): it receives the
message and may mutate the daemon (the C++ lambdas capture `this`). -/
abbrev cpu_message_handler := cpu_message → cpu_daemon → cpu_daemon

/-- The handler table: `m_message_handlers`, indexed by type, then by each
handler of that type. -/
abbrev handler_table := cpu_message_type → List cpu_message_handler

/-- `m_message_handlers` after `resize(_last)`: every type has zero
handlers. -/
def empty_handlers : handler_table := fun _ => []

/-- `cpu_daemon::register_message_handler` (`cpu_daemon.cpp` lines 99-103):
append the handler to the list of its type (`push_back`). -/
def register_message_handler (tbl : handler_table) (ty : cpu_message_type)
    (hdl : cpu_message_handler) : handler_table :=
  fun t => if t = ty then tbl t ++ [hdl] else tbl t

/-- `cpu_daemon::set_cpu_state` (`cpu_daemon.cpp` lines 46-49). -/
def set_cpu_state (d : cpu_daemon) (state : cpu_state) : cpu_daemon :=
  { d with m_cpu_state := state }

/-- The `LoadROM` handler registered by the constructor (`cpu_daemon.cpp`
lines 17-23): reset the cpu, then load the ROM bytes at the hardcoded
address 0x200, discarding `load_rom`'s boolean result. -/
def LoadROM_handler : cpu_message_handler :=
  fun msg d => { d with m_cpu := ((d.m_cpu.reset).load_rom msg.m_data 0x200).2 }

/-- The `SetStateRunning` handler registered by the constructor
(`cpu_daemon.cpp` lines 25-29). -/
def SetStateRunning_handler : cpu_message_handler :=
  fun _msg d => set_cpu_state d cpu_state.running

/-- The handler table the constructor builds: exactly two registrations,
`LoadROM` then `SetStateRunning` (`cpu_daemon.cpp` lines 11-34); no handler
is registered for any other message type anywhere in the repository. -/
def daemon_handlers : handler_table :=
  register_message_handler
    (register_message_handler empty_handlers cpu_message_type.LoadROM
      LoadROM_handler)
    cpu_message_type.SetStateRunning SetStateRunning_handler

/-- One iteration of the drain loop's message handling (`cpu_daemon.cpp`
lines 59-80): if the front message's type has registered handlers, call them
all in order; the message is then popped either way. -/
def process_message (tbl : handler_table) (msg : cpu_message)
    (d : cpu_daemon) : cpu_daemon :=
  if 0 < (tbl msg.m_type).length then
    (tbl msg.m_type).foldl (fun s h => h msg s) d
  else
    d

/-- The inner while-loop of `cpu_thread` draining the queue front to back. -/
def process_queue (tbl : handler_table) :
    List cpu_message → cpu_daemon → cpu_daemon
  | [], d => d
  | msg :: rest, d => process_queue tbl rest (process_message tbl msg d)

/-- The handler fold instrumented with an invocation log: each invocation
records the message type and the handler's position in the registration
list. -/
def run_handlers_traced (msg : cpu_message) :
    List cpu_message_handler → Nat → cpu_daemon →
      cpu_daemon × List (cpu_message_type × Nat)
  | [], _, d => (d, [])
  | h :: rest, i, d =>
    let r := run_handlers_traced msg rest (i + 1) (h msg d)
    (r.1, (msg.m_type, i) :: r.2)

/-- `process_message` instrumented with the invocation log. -/
def process_message_traced (tbl : handler_table) (msg : cpu_message)
    (d : cpu_daemon) : cpu_daemon × List (cpu_message_type × Nat) :=
  if 0 < (tbl msg.m_type).length then
    run_handlers_traced msg (tbl msg.m_type) 0 d
  else
    (d, [])

/-- `process_queue` instrumented with the invocation log. -/
def process_queue_traced (tbl : handler_table) :
    List cpu_message → cpu_daemon →
      cpu_daemon × List (cpu_message_type × Nat)
  | [], d => (d, [])
  | msg :: rest, d =>
    let r1 := process_message_traced tbl msg d
    let r2 := process_queue_traced tbl rest r1.1
    (r2.1, r1.2 ++ r2.2)

/-- One iteration of the `cpu_thread` worker loop body (`cpu_daemon.cpp`
lines 56-87): drain the message queue, then if the cpu state is `running`
execute exactly one instruction and sleep for the hardcoded 250 milliseconds
(`std::this_thread::sleep_for(std::chrono::milliseconds(250))`); when paused
neither happens.  `exec` abstracts `cpu::execute_op_at_pc`, whose body is in
the absent `cpu.cpp`.  Returns the new daemon state, the number of
`execute_op_at_pc` calls made, and the milliseconds slept. -/
def cpu_thread_iteration (exec : cpu → cpu) (tbl : handler_table)
    (d : cpu_daemon) : cpu_daemon × Nat × Nat :=
  let d2 := process_queue tbl d.m_unhandled_messages
    { d with m_unhandled_messages := [] }
  if d2.m_cpu_state = cpu_state.running then
    ({ d2 with m_cpu := exec d2.m_cpu }, 1, 250)
  else
    (d2, 0, 0)

/-- The worker loop body paired with the loop's local termination flag
(`bool die` of `cpu_thread`, `cpu_daemon.cpp` lines 52-88): no statement of
the body assigns `die`, so the flag component passes through unchanged. -/
def cpu_thread_step (exec : cpu → cpu) (tbl : handler_table) :
    Bool × cpu_daemon → Bool × cpu_daemon :=
  fun s => (s.1, (cpu_thread_iteration exec tbl s.2).1)

/-- `n` iterations of the worker loop, started as `cpu_thread` starts it:
`die` initialized to `false`. -/
def cpu_thread_run (exec : cpu → cpu) (tbl : handler_table) :
    Nat → Bool × cpu_daemon → Bool × cpu_daemon
  | 0, s => s
  | n + 1, s => cpu_thread_run exec tbl n (cpu_thread_step exec tbl s)

/-- Synchronization events of the worker and caller, in program order. -/
inductive daemon_event where
  | lock_acquire
  | lock_release
  | handler_invoke (t : cpu_message_type) (i : Nat)
  | queue_pop
  | queue_push
  deriving DecidableEq, Repr

/-- The event order of one drain-loop iteration of `cpu_thread`
(`cpu_daemon.cpp` lines 59-80) for the message at the front of the queue:
the `std::lock_guard` acquires `m_cpu_thread_mutex` at the top of the loop
body's scope, every registered handler of the message's type is invoked, the
message is popped, and the guard releases the mutex only when the scope
ends — after the handlers have run. -/
def drain_iteration_events (tbl : handler_table) (msg : cpu_message) :
    List daemon_event :=
  [daemon_event.lock_acquire] ++
    (List.range (tbl msg.m_type).length).map
      (daemon_event.handler_invoke msg.m_type) ++
    [daemon_event.queue_pop, daemon_event.lock_release]

/-- The event order of `cpu_daemon::send_message` (`cpu_daemon.cpp` lines
90-97): the same mutex is held around the queue push. -/
def send_message_events : List daemon_event :=
  [daemon_event.lock_acquire, daemon_event.queue_push,
    daemon_event.lock_release]

/-- `true` when some handler invocation in the trace happens while the mutex
is held (lock depth positive at the invocation). -/
def invoke_while_locked : Nat → List daemon_event → Bool
  | _, [] => false
  | depth, e :: rest =>
    match e with
    | .lock_acquire => invoke_while_locked (depth + 1) rest
    | .lock_release => invoke_while_locked (depth - 1) rest
    | .handler_invoke _ _ => decide (0 < depth) || invoke_while_locked depth rest
    | _ => invoke_while_locked depth rest

/-- `true` when every handler invocation in the trace happens while the
mutex is held. -/
def all_invokes_locked : Nat → List daemon_event → Bool
  | _, [] => true
  | depth, e :: rest =>
    match e with
    | .lock_acquire => all_invokes_locked (depth + 1) rest
    | .lock_release => all_invokes_locked (depth - 1) rest
    | .handler_invoke _ _ => decide (0 < depth) && all_invokes_locked depth rest
    | _ => all_invokes_locked depth rest

/-- A concrete daemon state: running, default clock speed, empty queue. -/
def d_run0 : cpu_daemon :=
  { m_cpu := cpu0, m_cpu_state := cpu_state.running, m_clock_speed := 500
    m_unhandled_messages := [] }

/-!
## Scheduler theorems
-/

/-- Claim C9: the worker loop's termination flag is initialized `false` and
no loop body ever sets it, so after any number of iterations, with any cycle
function and handler table and from any starting state, the flag is still
`false` and `cpu_thread`'s `while (!die)` loop never exits. -/
theorem C9_cpu_thread_never_exits (exec : cpu → cpu) (tbl : handler_table)
    (n : Nat) (d : cpu_daemon) :
    (cpu_thread_run exec tbl n (false, d)).1 = false := by
  induction n generalizing d with
  | zero => rfl
  | succ k ih => exact ih (cpu_thread_iteration exec tbl d).1

/-- Claim C3 (as evidence of the code bug): on a worker-loop iteration that
finds the state `running`, exactly one fetch-decode-execute cycle runs, but
the yield interval is the hardcoded 250 milliseconds whatever the
clock-speed field holds, while the interval the claim derives from the
default 500 cycles/second field is 1000/500 = 2 milliseconds, not 250. -/
theorem C3_sleep_not_derived_from_clock (exec : cpu → cpu)
    (tbl : handler_table) (d : cpu_daemon)
    (hq : d.m_unhandled_messages = []) (hs : d.m_cpu_state = cpu_state.running) :
    (cpu_thread_iteration exec tbl d).2.1 = 1 ∧
    (∀ ck, (cpu_thread_iteration exec tbl
      { d with m_clock_speed := ck }).2.2 = 250) ∧
    1000 / 500 = 2 ∧ (2 : Nat) ≠ 250 := by
  obtain ⟨c, st, ck0, q⟩ := d
  simp only at hq hs
  subst hq
  subst hs
  exact ⟨rfl, fun ck => rfl, rfl, by decide⟩

/-- Claim C3, witness: a concrete running daemon with the default clock
speed of 500 executes one cycle and sleeps 250 ms, not the derived 2 ms. -/
theorem C3_sleep_witness :
    (cpu_thread_iteration id daemon_handlers d_run0).2.1 = 1 ∧
    (∀ ck, (cpu_thread_iteration id daemon_handlers
      { d_run0 with m_clock_speed := ck }).2.2 = 250) ∧
    1000 / 500 = 2 ∧ (2 : Nat) ≠ 250 :=
  C3_sleep_not_derived_from_clock id daemon_handlers d_run0 rfl rfl

/-- Claim C10: the LoadROM handler discards `load_rom`'s boolean result: for
every ROM that does not fit below 4096 when loaded at the hardcoded 0x200,
`load_rom` reports failure, yet the machine has already been reset by the
handler and the daemon state the command path produces carries no failure
indication — its cpu is exactly the freshly reset state. -/
theorem C10_failed_load_is_silent (msg : cpu_message) (d : cpu_daemon)
    (ht : msg.m_type = cpu_message_type.LoadROM)
    (hlen : 4096 < msg.m_data.length + 0x200) :
    ((d.m_cpu.reset).load_rom msg.m_data 0x200).1 = false ∧
    process_message daemon_handlers msg d =
      { d with m_cpu := cpu.reset d.m_cpu } := by
  obtain ⟨ty, data, addr⟩ := msg
  simp only at ht hlen
  subst ht
  have hno : ¬(data.length + 0x200 ≤ 4096) := by omega
  constructor
  · simp [cpu.load_rom, hno]
  · show LoadROM_handler ⟨cpu_message_type.LoadROM, data, addr⟩ d = _
    simp [LoadROM_handler, cpu.load_rom, hno]

/-- A ROM one byte too large to fit at 0x200. -/
def rom_too_big : List Nat := List.replicate 3585 0

/-- Claim C10, witness: loading a concrete 3585-byte ROM fails, and the
daemon's command path leaves the cpu at the reset state with no failure
observable. -/
theorem C10_failed_load_witness :
    ((d_run0.m_cpu.reset).load_rom rom_too_big 0x200).1 = false ∧
    process_message daemon_handlers
      { m_type := cpu_message_type.LoadROM, m_data := rom_too_big,
        m_address := 0 } d_run0 =
      { d_run0 with m_cpu := cpu.reset d_run0.m_cpu } :=
  C10_failed_load_is_silent
    { m_type := cpu_message_type.LoadROM, m_data := rom_too_big,
      m_address := 0 } d_run0 rfl
    (by rw [rom_too_big, List.length_replicate]; omega)

/-- Claim C5, counterexample: a LoadRom command carrying one byte 0xAB and
the load address 0x300 does not load at the supplied address: after
processing, memory at 0x300 holds 0 while the byte sits at the hardcoded
0x200. -/
theorem C5_counterexample_address_ignored :
    (process_message daemon_handlers
      { m_type := cpu_message_type.LoadROM, m_data := [0xAB],
        m_address := 0x300 } d_run0).m_cpu.m_ram.getD 0x300 0 = 0 ∧
    (process_message daemon_handlers
      { m_type := cpu_message_type.LoadROM, m_data := [0xAB],
        m_address := 0x300 } d_run0).m_cpu.m_ram.getD 0x200 0 = 0xAB := by
  constructor <;> decide

/-- Claim C5 (amended): processing a LoadRom command first resets the
machine state (memory, registers, stack, pc to 0x200, sp to 0, display
cleared) and then loads the ROM bytes at the fixed address 0x200, ignoring
the load address supplied with the command (the result is the same for every
supplied address). -/
theorem C5_loadrom_resets_then_loads_at_0x200 (msg : cpu_message)
    (d : cpu_daemon) (ht : msg.m_type = cpu_message_type.LoadROM)
    (hlen : msg.m_data.length + 0x200 ≤ 4096) :
    (process_message daemon_handlers msg d).m_cpu.m_ram =
      List.replicate 0x200 0 ++ msg.m_data ++
        List.replicate (4096 - 0x200 - msg.m_data.length) 0 ∧
    (process_message daemon_handlers msg d).m_cpu.m_pc = 0x200 ∧
    (process_message daemon_handlers msg d).m_cpu.m_sp = 0 ∧
    (process_message daemon_handlers msg d).m_cpu.m_gpr =
      List.replicate 16 0 ∧
    (process_message daemon_handlers msg d).m_cpu.m_stack =
      List.replicate 16 0 ∧
    (process_message daemon_handlers msg d).m_cpu.m_screen =
      List.replicate (128 * 64) false ∧
    ∀ a, process_message daemon_handlers { msg with m_address := a } d =
      process_message daemon_handlers msg d := by
  obtain ⟨ty, data, addr⟩ := msg
  simp only at ht hlen
  subst ht
  have hred : ∀ a : Nat, process_message daemon_handlers
      ⟨cpu_message_type.LoadROM, data, a⟩ d =
      { d with m_cpu :=
        ((d.m_cpu.reset).load_rom data 0x200).2 } := fun a => rfl
  refine ⟨?_, ?_, ?_, ?_, ?_, ?_, fun a => (hred a).trans (hred addr).symm⟩ <;>
    rw [hred addr, load_rom_fits _ _ _ hlen]
  · show (List.replicate 4096 0).take 0x200 ++ data ++
      (List.replicate 4096 0).drop (0x200 + data.length) =
        List.replicate 0x200 0 ++ data ++
          List.replicate (4096 - 0x200 - data.length) 0
    rw [List.take_replicate, List.drop_replicate]
    congr 1
    congr 1
    omega
  · rfl
  · rfl
  · rfl
  · rfl
  · rfl

/-- Claim C5, witness: a concrete two-byte ROM command is processed into the
reset state with the bytes at 0x200. -/
theorem C5_loadrom_witness :
    (process_message daemon_handlers
      { m_type := cpu_message_type.LoadROM, m_data := [0xAB, 0xCD],
        m_address := 0x300 } d_run0).m_cpu.m_pc = 0x200 :=
  (C5_loadrom_resets_then_loads_at_0x200
    { m_type := cpu_message_type.LoadROM, m_data := [0xAB, 0xCD],
      m_address := 0x300 } d_run0 rfl (by decide)).2.1

/-- Claim C6, counterexample: the constructor registers no handler for
`SetStatePaused`, so a queued SetPaused command has no effect: a running
daemon stays running instead of pausing. -/
theorem C6_counterexample_SetPaused_ignored :
    daemon_handlers cpu_message_type.SetStatePaused = [] ∧
    process_message daemon_handlers
      { m_type := cpu_message_type.SetStatePaused, m_data := [],
        m_address := 0 } d_run0 = d_run0 ∧
    d_run0.m_cpu_state = cpu_state.running :=
  ⟨rfl, rfl, rfl⟩

/-- Claim C6 (amended): of the six command kinds only LoadRom and SetRunning
have registered handlers and cause their specified effects (reset-and-load,
set state running); SetPaused, KeyDown, KeyUp and SetClockSpeed have zero
registered handlers, and a queued command of any of those kinds leaves the
daemon state unchanged. -/
theorem C6_only_two_commands_supported :
    (∀ (msg : cpu_message) (d : cpu_daemon),
      msg.m_type = cpu_message_type.LoadROM →
      process_message daemon_handlers msg d =
        { d with m_cpu := ((d.m_cpu.reset).load_rom msg.m_data 0x200).2 }) ∧
    (∀ (msg : cpu_message) (d : cpu_daemon),
      msg.m_type = cpu_message_type.SetStateRunning →
      process_message daemon_handlers msg d =
        set_cpu_state d cpu_state.running) ∧
    (∀ t, (t = cpu_message_type.SetStatePaused ∨
        t = cpu_message_type.KeyDown ∨ t = cpu_message_type.KeyUp ∨
        t = cpu_message_type.SetClockSpeed) →
      daemon_handlers t = [] ∧
      ∀ (msg : cpu_message) (d : cpu_daemon), msg.m_type = t →
        process_message daemon_handlers msg d = d) := by
  refine ⟨?_, ?_, ?_⟩
  · intro msg d ht
    obtain ⟨ty, data, addr⟩ := msg
    simp only at ht
    subst ht
    rfl
  · intro msg d ht
    obtain ⟨ty, data, addr⟩ := msg
    simp only at ht
    subst ht
    rfl
  · intro t ht
    rcases ht with h | h | h | h <;> subst h <;>
      refine ⟨rfl, fun msg d hm => ?_⟩ <;>
      obtain ⟨ty, data, addr⟩ := msg <;>
      simp only at hm <;> subst hm <;> rfl

/-- The instrumented handler fold computes the same state as the plain fold
and logs one invocation per handler, positions ascending from the start
index. -/
theorem run_handlers_traced_spec (msg : cpu_message) :
    ∀ (hs : List cpu_message_handler) (i : Nat) (d : cpu_daemon),
    (run_handlers_traced msg hs i d).1 = hs.foldl (fun s h => h msg s) d ∧
    (run_handlers_traced msg hs i d).2 =
      (List.range hs.length).map (fun j => (msg.m_type, i + j)) := by
  intro hs
  induction hs with
  | nil => exact fun i d => ⟨rfl, rfl⟩
  | cons h rest ih =>
    intro i d
    constructor
    · show (run_handlers_traced msg rest (i + 1) (h msg d)).1 = _
      rw [(ih (i + 1) (h msg d)).1]
      rfl
    · show (msg.m_type, i) ::
        (run_handlers_traced msg rest (i + 1) (h msg d)).2 = _
      rw [(ih (i + 1) (h msg d)).2]
      show _ = (List.range (rest.length + 1)).map (fun j => (msg.m_type, i + j))
      have hf : ((fun j => (msg.m_type, i + j)) ∘ Nat.succ) =
          (fun j => (msg.m_type, (i + 1) + j)) := by
        funext j
        show (msg.m_type, i + (j + 1)) = (msg.m_type, (i + 1) + j)
        have h2 : i + (j + 1) = (i + 1) + j := by omega
        rw [h2]
      rw [List.range_succ_eq_map, List.map_cons, List.map_map, hf]
      rfl

/-- The instrumented message processing computes the same daemon state as
`process_message`. -/
theorem process_message_traced_state (tbl : handler_table)
    (msg : cpu_message) (d : cpu_daemon) :
    (process_message_traced tbl msg d).1 = process_message tbl msg d := by
  unfold process_message_traced process_message
  by_cases h : 0 < (tbl msg.m_type).length
  · rw [if_pos h, if_pos h]
    exact (run_handlers_traced_spec msg (tbl msg.m_type) 0 d).1
  · rw [if_neg h, if_neg h]

/-- The invocation log of one processed message: every registered handler of
the message's type exactly once, indices in registration order. -/
theorem process_message_traced_log (tbl : handler_table)
    (msg : cpu_message) (d : cpu_daemon) :
    (process_message_traced tbl msg d).2 =
      (List.range (tbl msg.m_type).length).map (fun j => (msg.m_type, j)) := by
  unfold process_message_traced
  by_cases h : 0 < (tbl msg.m_type).length
  · rw [if_pos h, (run_handlers_traced_spec msg (tbl msg.m_type) 0 d).2]
    simp
  · rw [if_neg h]
    have hz : (tbl msg.m_type).length = 0 := by omega
    rw [hz]
    rfl

/-- Claim C7: for every handler table, message and queue, (i) processing one
queued command invokes all handlers registered for its type exactly once
each, in registration order (the invocation log is the index sequence 0, 1,
… over the registration list, and `register_message_handler` appends at the
end of its type's list); (ii) a command whose type has zero registered
handlers has no effect; (iii) draining a queue produces exactly one such
handler run per queued command instance, in queue order. -/
theorem C7_handlers_in_registration_order (tbl : handler_table)
    (msg : cpu_message) (d : cpu_daemon) (msgs : List cpu_message) :
    ((process_message_traced tbl msg d).2 =
      (List.range (tbl msg.m_type).length).map (fun j => (msg.m_type, j)) ∧
     (process_message_traced tbl msg d).1 = process_message tbl msg d) ∧
    (∀ ty hdl, register_message_handler tbl ty hdl ty = tbl ty ++ [hdl]) ∧
    (tbl msg.m_type = [] → process_message tbl msg d = d) ∧
    ((process_queue_traced tbl msgs d).1 = process_queue tbl msgs d ∧
     (process_queue_traced tbl msgs d).2 = msgs.flatMap (fun m =>
       (List.range (tbl m.m_type).length).map (fun j => (m.m_type, j)))) := by
  refine ⟨⟨process_message_traced_log tbl msg d,
    process_message_traced_state tbl msg d⟩, ?_, ?_, ?_⟩
  · intro ty hdl
    unfold register_message_handler
    rw [if_pos rfl]
  · intro h
    unfold process_message
    rw [h]
    rfl
  · induction msgs generalizing d with
    | nil => exact ⟨rfl, rfl⟩
    | cons m rest ih =>
      constructor
      · show (process_queue_traced tbl rest
          (process_message_traced tbl m d).1).1 = _
        rw [(ih _).1, process_message_traced_state]
        rfl
      · show (process_message_traced tbl m d).2 ++
          (process_queue_traced tbl rest (process_message_traced tbl m d).1).2 = _
        rw [(ih _).2, process_message_traced_log]
        rfl

/-- Every handler invocation in the tail of a drain iteration happens at
positive lock depth. -/
theorem all_invokes_locked_tail (t : cpu_message_type) :
    ∀ (l : List Nat) (depth : Nat), 0 < depth →
    all_invokes_locked depth (l.map (daemon_event.handler_invoke t) ++
      [daemon_event.queue_pop, daemon_event.lock_release]) = true := by
  intro l
  induction l with
  | nil => intro depth _; rfl
  | cons a as ih =>
    intro depth h
    show (decide (0 < depth) &&
      all_invokes_locked depth (as.map (daemon_event.handler_invoke t) ++
        [daemon_event.queue_pop, daemon_event.lock_release])) = true
    rw [decide_eq_true h, ih depth h, Bool.and_self]

/-- A trace beginning with a handler invocation at positive lock depth
witnesses an invocation under the lock. -/
theorem invoke_while_locked_cons (t : cpu_message_type) (idx : Nat)
    (rest : List daemon_event) (depth : Nat) (h : 0 < depth) :
    invoke_while_locked depth
      (daemon_event.handler_invoke t idx :: rest) = true := by
  show (decide (0 < depth) || invoke_while_locked depth rest) = true
  rw [decide_eq_true h, Bool.true_or]

/-- Claim C4, counterexample: LoadROM has a registered handler, and in the
drain iteration for a LoadROM message that handler is invoked while the
worker holds the queue mutex — the `lock_guard`'s scope spans the handler
calls, so the lock is not released before handlers execute. -/
theorem C4_counterexample_handler_under_lock :
    0 < (daemon_handlers cpu_message_type.LoadROM).length ∧
    invoke_while_locked 0 (drain_iteration_events daemon_handlers
      { m_type := cpu_message_type.LoadROM, m_data := [],
        m_address := 0 }) = true := by
  constructor
  · decide
  · decide

/-- Claim C4 (amended): the drain loop acquires the mutex once per drained
message and holds it for the entire processing of that message: every
registered handler invocation happens while the lock is held, and the lock
is released only after the message is popped; `send_message` pushes under
the same mutex. -/
theorem C4_lock_spans_handler_execution (tbl : handler_table)
    (msg : cpu_message) :
    all_invokes_locked 0 (drain_iteration_events tbl msg) = true ∧
    (0 < (tbl msg.m_type).length →
      invoke_while_locked 0 (drain_iteration_events tbl msg) = true) := by
  constructor
  · show all_invokes_locked 1
      ((List.range (tbl msg.m_type).length).map
        (daemon_event.handler_invoke msg.m_type) ++
      [daemon_event.queue_pop, daemon_event.lock_release]) = true
    exact all_invokes_locked_tail msg.m_type _ 1 (by decide)
  · intro h
    show invoke_while_locked 1
      ((List.range (tbl msg.m_type).length).map
        (daemon_event.handler_invoke msg.m_type) ++
      [daemon_event.queue_pop, daemon_event.lock_release]) = true
    obtain ⟨k, hk⟩ : ∃ k, (tbl msg.m_type).length = k + 1 :=
      ⟨(tbl msg.m_type).length - 1, by omega⟩
    rw [hk, List.range_succ_eq_map, List.map_cons, List.cons_append]
    exact invoke_while_locked_cons msg.m_type 0 _ 1 (by decide)

end nchip8
